import Mathlib

/-
Shallow embedding of lib/IRGen/GenObjC.cpp, the Objective-C ABI bridge of the
Swift IR generator.

LLVM-level entities are modelled abstractly: a `GlobalSym` is the identity of an
emitted LLVM global (pointer identity is what the caching contracts are about),
and `IRGenModuleState` carries the module-scoped caches `ObjCMethodNames`,
`ObjCSelectorRefs` and `ObjCProtocols` of `IRGenModule` together with a counter
that hands out fresh global identities (every `new llvm::GlobalVariable` and
every emitted protocol record consumes one).

Foreign (clang) types are modelled by what this file consumes of them: the
result of `GenClangType::visit` is `Option ForeignType` (`none` models a null
`clang::QualType`), where `ForeignType.code` is the text that
`clangASTContext.getObjCEncodingForType` appends and `ForeignType.size` is
`clangASTContext.getObjCEncodingTypeSize` in bytes.
-/

/-- Identity of an emitted LLVM global. -/
abbrev GlobalSym := Nat

/-- Module-scoped caches of `IRGenModule` used by the ObjC bridge.
`nextGlobal` allocates fresh global identities. -/
structure IRGenModuleState where
  ObjCMethodNames : List (String × GlobalSym)
  ObjCSelectorRefs : List (String × GlobalSym)
  ObjCProtocols : List (Nat × (GlobalSym × GlobalSym))
  nextGlobal : Nat
deriving DecidableEq

/-- Embedding of `IRGenModule::getAddrOfObjCMethodName` (GenObjC.cpp:159):
look the selector up in `ObjCMethodNames`; if present return the cached
address, otherwise emit a fresh name global (the `__objc_methname` string
blob), cache its address and return it. -/
def getAddrOfObjCMethodName (m : IRGenModuleState) (selector : String) :
    GlobalSym × IRGenModuleState :=
  match m.ObjCMethodNames.lookup selector with
  | some entry => (entry, m)
  | Option.none =>
      let address := m.nextGlobal
      (address,
       { m with
         ObjCMethodNames := (selector, address) :: m.ObjCMethodNames,
         nextGlobal := m.nextGlobal + 1 })

/-- Embedding of `IRGenModule::getAddrOfObjCSelectorRef` (GenObjC.cpp:186):
look the selector up in `ObjCSelectorRefs`; if present return the cached
global, otherwise get-or-create the method name global (the reference cell's
initializer points at it), emit a fresh `__objc_selrefs` cell, mark it used,
cache and return it. -/
def getAddrOfObjCSelectorRef (m : IRGenModuleState) (selector : String) :
    GlobalSym × IRGenModuleState :=
  match m.ObjCSelectorRefs.lookup selector with
  | some entry => (entry, m)
  | Option.none =>
      let nameAndState := getAddrOfObjCMethodName m selector
      let m1 := nameAndState.2
      let global := m1.nextGlobal
      (global,
       { m1 with
         ObjCSelectorRefs := (selector, global) :: m1.ObjCSelectorRefs,
         nextGlobal := m1.nextGlobal + 1 })

/-- Embedding of `IRGenModule::getObjCProtocolGlobalVars` (GenObjC.cpp:238):
look the protocol up in `ObjCProtocols`; on a miss emit the protocol record
(`emitObjCProtocolData`), a `__objc_protolist` label global and a
`__objc_protorefs` reference global (three fresh globals; the label is not
part of the returned pair), insert the `(record, ref)` pair and return it. -/
def getObjCProtocolGlobalVars (m : IRGenModuleState) (proto : Nat) :
    (GlobalSym × GlobalSym) × IRGenModuleState :=
  match m.ObjCProtocols.lookup proto with
  | some pair => (pair, m)
  | Option.none =>
      let protocolRecord := m.nextGlobal
      let protocolRef := m.nextGlobal + 2
      let pair := (protocolRecord, protocolRef)
      (pair,
       { m with
         ObjCProtocols := (proto, pair) :: m.ObjCProtocols,
         nextGlobal := m.nextGlobal + 3 })

/-- Selector naming family, `Selector::Family` (GenObjC.cpp:297). -/
inductive SelectorFamily where
  | None
  | Alloc
  | Copy
  | Init
  | MutableCopy
  | New
deriving DecidableEq

/-- Model of C `islower` in the C locale (ASCII lowercase letters). -/
def isLowerAscii (c : Char) : Bool := 'a' ≤ c && c ≤ 'z'

def allocChars : List Char := "alloc".toList

def copyChars : List Char := "copy".toList

def initChars : List Char := "init".toList

def mutableCopyChars : List Char := "mutableCopy".toList

def newChars : List Char := "new".toList

/-- Embedding of `Selector::hasPrefix` (GenObjC.cpp:386): the text starts with
the given string; an exact-length match succeeds, otherwise the character right
after the matched part must not be lowercase. -/
def hasPrefixCh (text pre : List Char) : Bool :=
  if pre.isPrefixOf text then
    if text.length = pre.length then true
    else !isLowerAscii (text.getD pre.length ' ')
  else false

/-- Embedding of the leading-underscore stripping loop in `Selector::getFamily`
(GenObjC.cpp:373). -/
def stripLeadingUnderscores : List Char → List Char
  | [] => []
  | c :: rest => if c = '_' then stripLeadingUnderscores rest else c :: rest

/-- The `CHECK_PREFIX` chain of `Selector::getFamily`, in `FOREACH_FAMILY`
order: Alloc, Copy, Init, MutableCopy, New (GenObjC.cpp:289,375). -/
def getFamilyStripped (t : List Char) : SelectorFamily :=
  if hasPrefixCh t allocChars then .Alloc
  else if hasPrefixCh t copyChars then .Copy
  else if hasPrefixCh t initChars then .Init
  else if hasPrefixCh t mutableCopyChars then .MutableCopy
  else if hasPrefixCh t newChars then .New
  else .None

/-- Embedding of `Selector::getFamily` (GenObjC.cpp:371). -/
def getFamily (text : List Char) : SelectorFamily :=
  getFamilyStripped (stripLeadingUnderscores text)

/-- `Selector::getFamily` on selector text given as a string. -/
def getFamilyOfSelector (s : String) : SelectorFamily :=
  getFamily s.toList

/-- Modelled from the spec words for comparison with `hasPrefixCh`: a
case-sensitive match against the family name where the character following the
matched part, when one exists, is not lowercase. -/
def specPrefixRule (text pre : List Char) : Bool :=
  pre.isPrefixOf text &&
    (match text.drop pre.length with
     | [] => true
     | c :: _ => !isLowerAscii c)

/-- The family name list, in the spec's order. -/
def specFamilyTable : List (SelectorFamily × List Char) :=
  [(.Alloc, allocChars), (.Copy, copyChars), (.Init, initChars),
   (.MutableCopy, mutableCopyChars), (.New, newChars)]

/-- Modelled from the spec words for comparison with `getFamilyStripped`:
first family in the list whose name matches under `specPrefixRule`. -/
def specFamilyOfStripped (t : List Char) : SelectorFamily :=
  match specFamilyTable.find? (fun e => specPrefixRule t e.2) with
  | some e => e.1
  | Option.none => .None

/-- Modelled from the spec words for comparison with `getFamilyOfSelector`:
strip every leading underscore, then classify. -/
def specGetFamily (s : String) : SelectorFamily :=
  specFamilyOfStripped (s.toList.dropWhile (fun c => c == '_'))

/-- What this file consumes of a clang type: its ObjC encoding text and its
`getObjCEncodingTypeSize` in bytes. -/
structure ForeignType where
  code : String
  size : Nat
deriving DecidableEq

/-- Input part of an `AnyFunctionType` as case-analyzed by
`GetObjCEncodingForMethodType`: a `TupleType` of argument types, or a single
(possibly parenthesized) argument type. Each argument is the result of
`GenClangType::visit` (`none` models a null clang type). -/
inductive MethodInput where
  | tuple (elems : List (Option ForeignType))
  | single (arg : Option ForeignType)
deriving DecidableEq

def atZeroColon : String := "@0:"

/-- First pass of the tuple case of `GetObjCEncodingForMethodType`
(GenObjC.cpp:899): accumulate each argument's encoded size onto the running
offset; an unencodable argument aborts; a zero-size argument is skipped. -/
def sumArgSizes : List (Option ForeignType) → Nat → Option Nat
  | [], acc => some acc
  | Option.none :: _, _ => Option.none
  | some ft :: rest, acc =>
      if ft.size = 0 then sumArgSizes rest acc
      else sumArgSizes rest (acc + ft.size)

/-- Second pass of the tuple case of `GetObjCEncodingForMethodType`
(GenObjC.cpp:915): append each argument's encoding text followed by its
cumulative offset; an unencodable argument aborts. -/
def emitArgEncodings : List (Option ForeignType) → Nat → String → Option String
  | [], _, acc => some acc
  | Option.none :: _, _, _ => Option.none
  | some ft :: rest, off, acc =>
      emitArgEncodings rest (off + ft.size) (acc ++ ft.code ++ toString off)

/-- Embedding of `GetObjCEncodingForMethodType` (GenObjC.cpp:876).
`P` is the pointer size in bytes. Returns `none` where the source returns the
null constant `cnull`. -/
def GetObjCEncodingForMethodType (P : Nat) (ret : Option ForeignType)
    (inp : MethodInput) : Option String :=
  match ret with
  | Option.none => Option.none
  | some r =>
    match inp with
    | .tuple elems =>
        match sumArgSizes elems (2 * P) with
        | Option.none => Option.none
        | some parmOffset =>
            emitArgEncodings elems (2 * P)
              (r.code ++ toString parmOffset ++ atZeroColon ++ toString P)
    | .single argOpt =>
        match argOpt with
        | Option.none => Option.none
        | some a =>
            let parmOffset := if a.size = 0 then 2 * P else 2 * P + a.size
            some (r.code ++ toString parmOffset ++ atZeroColon ++ toString P
                  ++ a.code ++ toString (2 * P))

/-- Sum of the encoded argument sizes, spec side. -/
def sizeSum (args : List ForeignType) : Nat :=
  (args.map ForeignType.size).sum

/-- Spec-side argument section: each argument's code followed by its cumulative
offset. -/
def specArgsEncoding : List ForeignType → Nat → String
  | [], _ => ""
  | ft :: rest, off => ft.code ++ toString off ++ specArgsEncoding rest (off + ft.size)

/-- `ObjCMessageKind` of `prepareObjCMethodRootCall`. -/
inductive ObjCMessageKind where
  | Normal
  | Peer
  | Super
deriving DecidableEq

/-- The six well-known dispatch entry points of the ObjC runtime used in
`prepareObjCMethodRootCall` (GenObjC.cpp:483). -/
inductive ObjCMessenger where
  | msgSend
  | msgSendStret
  | msgSendSuper
  | msgSendSuperStret
  | msgSendSuper2
  | msgSendSuperStret2
deriving DecidableEq

/-- Embedding of the messenger selection in `prepareObjCMethodRootCall`
(GenObjC.cpp:482-511): the stret variants are chosen when the result is
indirect and the target uses the struct-return convention
(`TargetInfo.ObjCUseStret`). -/
def selectObjCMessenger (indirectResult objcUseStret : Bool)
    (kind : ObjCMessageKind) : ObjCMessenger :=
  if indirectResult && objcUseStret then
    match kind with
    | .Normal => .msgSendStret
    | .Peer => .msgSendSuperStret
    | .Super => .msgSendSuperStret2
  else
    match kind with
    | .Normal => .msgSend
    | .Peer => .msgSendSuper
    | .Super => .msgSendSuper2

/-- Modelled from the spec words for comparison with `selectObjCMessenger`:
the fixed six-way table over struct-return-in-effect and dispatch kind. -/
def specDispatchTable (structReturnInEffect : Bool) (kind : ObjCMessageKind) :
    ObjCMessenger :=
  match structReturnInEffect, kind with
  | false, .Normal => .msgSend
  | true, .Normal => .msgSendStret
  | false, .Peer => .msgSendSuper
  | true, .Peer => .msgSendSuperStret
  | false, .Super => .msgSendSuper2
  | true, .Super => .msgSendSuperStret2

/-- An implementation-pointer constant as stored in a descriptor: the null
constant (protocol members have no implementation) or the swift-as-objc thunk
for the getter or setter. -/
inductive ImplPtr where
  | nullPtr
  | getterThunk
  | setterThunk
deriving DecidableEq

/-- What the descriptor-part emitters consume of a `VarDecl`: its getter and
setter selector texts, whether it lives in a protocol, and the result of
`GenClangType::visit` on its type. -/
structure VarPropertyM where
  getterSelector : String
  setterSelector : String
  inProtocolContext : Bool
  clangTy : Option ForeignType
deriving DecidableEq

/-- What the descriptor-part emitters consume of a `SubscriptDecl`. The
element clang type is carried to state that the subscript emitters never
consult it. -/
structure SubscriptM where
  getterSelector : String
  setterSelector : String
  inProtocolContext : Bool
  elementClangTy : Option ForeignType
deriving DecidableEq

/-- The three by-reference out-parameters of the `emitObjC*DescriptorParts`
functions. `atEncoding = none` models assigning the null constant; an
`impl = none` models the out-parameter never being assigned on that path
(the source returns early without storing to it). -/
structure DescriptorPartsOut where
  selectorRef : String
  atEncoding : Option String
  impl : Option ImplPtr
deriving DecidableEq

/-- Embedding of `getObjCGetterPointer` (GenObjC.cpp:759): null for protocol
members, otherwise the swift-as-objc getter thunk. -/
def getObjCGetterPointer (inProtocol : Bool) : ImplPtr :=
  if inProtocol then .nullPtr else .getterThunk

/-- Embedding of `getObjCSetterPointer` (GenObjC.cpp:780). -/
def getObjCSetterPointer (inProtocol : Bool) : ImplPtr :=
  if inProtocol then .nullPtr else .setterThunk

/-- Embedding of `emitObjCGetterDescriptorParts` for a `VarDecl`
(GenObjC.cpp:986): on a null clang type the function stores the null encoding
and returns at line 1003 without assigning `impl`; otherwise it builds the
getter encoding `<code><2P>@0:<P>` and looks up the getter thunk. -/
def emitObjCGetterDescriptorPartsVar (P : Nat) (property : VarPropertyM) :
    DescriptorPartsOut :=
  match property.clangTy with
  | Option.none =>
      { selectorRef := property.getterSelector
        atEncoding := Option.none
        impl := Option.none }
  | some ft =>
      { selectorRef := property.getterSelector
        atEncoding := some (ft.code ++ toString (2 * P) ++ atZeroColon ++ toString P)
        impl := some (getObjCGetterPointer property.inProtocolContext) }

def voidReturnCode : String := "v"

/-- Embedding of `emitObjCSetterDescriptorParts` for a `VarDecl`
(GenObjC.cpp:1032): on a null clang type for the argument the function stores
the null encoding and returns at line 1059 without assigning `impl`; otherwise
it builds `v<2P+size>@0:<P><code><2P>` and looks up the setter thunk. -/
def emitObjCSetterDescriptorPartsVar (P : Nat) (property : VarPropertyM) :
    DescriptorPartsOut :=
  match property.clangTy with
  | Option.none =>
      { selectorRef := property.setterSelector
        atEncoding := Option.none
        impl := Option.none }
  | some ft =>
      let parmOffset := if ft.size = 0 then 2 * P else 2 * P + ft.size
      { selectorRef := property.setterSelector
        atEncoding := some (voidReturnCode ++ toString parmOffset ++ atZeroColon
                            ++ toString P ++ ft.code ++ toString (2 * P))
        impl := some (getObjCSetterPointer property.inProtocolContext) }

/-- Embedding of `emitObjCGetterDescriptorParts` for a `SubscriptDecl`
(GenObjC.cpp:1019): selector and implementation pointer are assigned, the
encoding is always the null constant. -/
def emitObjCGetterDescriptorPartsSubscript (subscript : SubscriptM) :
    DescriptorPartsOut :=
  { selectorRef := subscript.getterSelector
    atEncoding := Option.none
    impl := some (getObjCGetterPointer subscript.inProtocolContext) }

/-- Embedding of `emitObjCSetterDescriptorParts` for a `SubscriptDecl`
(GenObjC.cpp:1077). -/
def emitObjCSetterDescriptorPartsSubscript (subscript : SubscriptM) :
    DescriptorPartsOut :=
  { selectorRef := subscript.setterSelector
    atEncoding := Option.none
    impl := some (getObjCSetterPointer subscript.inProtocolContext) }

/-- A `method_t` descriptor: selector symbol, type-encoding string or null,
implementation pointer; `imp = none` records that the field was packed from a
never-assigned out-parameter. -/
structure MethodDescriptor where
  name : String
  types : Option String
  imp : Option ImplPtr
deriving DecidableEq

def descriptorOfParts (parts : DescriptorPartsOut) : MethodDescriptor :=
  { name := parts.selectorRef, types := parts.atEncoding, imp := parts.impl }

/-- Embedding of `emitObjCPropertyMethodDescriptors` (GenObjC.cpp:1143): the
getter descriptor is always built from the getter parts; the setter descriptor
is built only when the property is settable. -/
def emitObjCPropertyMethodDescriptors (P : Nat) (property : VarPropertyM)
    (isSettable : Bool) : MethodDescriptor × Option MethodDescriptor :=
  let getter := descriptorOfParts (emitObjCGetterDescriptorPartsVar P property)
  if isSettable then
    (getter, some (descriptorOfParts (emitObjCSetterDescriptorPartsVar P property)))
  else
    (getter, Option.none)

/-- `swift::ParameterConvention` cases relevant to
`emitObjCPartialApplicationForwarder`. -/
inductive ParameterConvention where
  | Direct_Unowned
  | Direct_Guaranteed
  | Direct_Owned
  | Indirect_In
  | Indirect_Out
  | Indirect_Inout
deriving DecidableEq

/-- Abstract instruction trace of the partial-application forwarder body. -/
inductive FwdStep where
  | loadSelfAsCopy
  | loadSelfAsTake
  | objcMsgSendCall
  | storeIndirectResult
  | releaseContext
  | retVoid
  | retScalar
deriving DecidableEq

/-- The `retainsSelf` switch of `emitObjCPartialApplicationForwarder`
(GenObjC.cpp:638): `none` models `llvm_unreachable("self passed
indirectly?!")`. -/
def retainsSelf : ParameterConvention → Option Bool
  | .Direct_Unowned => some false
  | .Direct_Guaranteed => some true
  | .Direct_Owned => some true
  | .Indirect_In => Option.none
  | .Indirect_Out => Option.none
  | .Indirect_Inout => Option.none

/-- Embedding of `emitObjCPartialApplicationForwarder` (GenObjC.cpp:614) as
the trace of ownership-relevant steps it emits: the receiver is loaded from
the closure as a copy or a take according to the convention, the ObjC dispatch
is performed, and each exit path releases the closure context exactly before
returning (indirect-result path: write the result, release, `ret void`;
direct path: release, scalar return). -/
def emitObjCPartialApplicationForwarder (selfConvention : ParameterConvention)
    (hasIndirectReturn : Bool) : Option (List FwdStep) :=
  match retainsSelf selfConvention with
  | Option.none => Option.none
  | some retains =>
      let loadStep := if retains then FwdStep.loadSelfAsCopy else FwdStep.loadSelfAsTake
      if hasIndirectReturn then
        some [loadStep, .objcMsgSendCall, .storeIndirectResult, .releaseContext, .retVoid]
      else
        some [loadStep, .objcMsgSendCall, .releaseContext, .retScalar]

/-- A `FuncDecl` as consumed by `requiresObjCMethodDescriptor`
(GenObjC.cpp:1188): its flags plus its overridden declaration, when any. -/
inductive FuncDeclM where
  | root (isAccessor typeIsPoly resultIsPoly contextIsBoundGeneric isObjC isIBAction : Bool)
  | withOverride (isAccessor typeIsPoly resultIsPoly contextIsBoundGeneric isObjC isIBAction : Bool)
      (overriddenDecl : FuncDeclM)
deriving DecidableEq

/-- Embedding of `requiresObjCMethodDescriptor(FuncDecl*)` (GenObjC.cpp:1188):
accessors are excluded, generic contexts are excluded, an ObjC or IBAction
marking accepts, otherwise the overridden declaration is consulted. -/
def requiresObjCMethodDescriptorFn : FuncDeclM → Bool
  | .root isAccessor typeIsPoly resultIsPoly contextIsBoundGeneric isObjC isIBAction =>
      if isAccessor then false
      else if typeIsPoly || resultIsPoly || contextIsBoundGeneric then false
      else if isObjC || isIBAction then true
      else false
  | .withOverride isAccessor typeIsPoly resultIsPoly contextIsBoundGeneric isObjC isIBAction ov =>
      if isAccessor then false
      else if typeIsPoly || resultIsPoly || contextIsBoundGeneric then false
      else if isObjC || isIBAction then true
      else requiresObjCMethodDescriptorFn ov

/-- A `ConstructorDecl` as consumed by
`requiresObjCMethodDescriptor(ConstructorDecl*)`; the overridden declaration
is carried even though the source predicate never consults it. -/
inductive ConstructorDeclM where
  | root (typeIsPoly resultIsPoly contextIsBoundGeneric isObjC : Bool)
  | withOverride (typeIsPoly resultIsPoly contextIsBoundGeneric isObjC : Bool)
      (overriddenDecl : ConstructorDeclM)
deriving DecidableEq

/-- Embedding of `requiresObjCMethodDescriptor(ConstructorDecl*)`
(GenObjC.cpp:1208): generic contexts are excluded, then the constructor's own
`isObjC` decides; there is no recursion into the overridden declaration. -/
def requiresObjCMethodDescriptorCtor : ConstructorDeclM → Bool
  | .root typeIsPoly resultIsPoly contextIsBoundGeneric isObjC =>
      if typeIsPoly || resultIsPoly || contextIsBoundGeneric then false else isObjC
  | .withOverride typeIsPoly resultIsPoly contextIsBoundGeneric isObjC _ =>
      if typeIsPoly || resultIsPoly || contextIsBoundGeneric then false else isObjC

/-- What the property and subscript eligibility predicates consume of a
function type: whether it is a block-compatible function type. -/
structure FnTypeM where
  isBlock : Bool
deriving DecidableEq

/-- A `VarDecl` as consumed by `requiresObjCPropertyDescriptor`
(GenObjC.cpp:1221). `fnType` is `some` exactly when the property's type is a
function type. -/
inductive VarDeclEligM where
  | root (contextIsBoundGeneric isObjC : Bool) (fnType : Option FnTypeM)
  | withOverride (contextIsBoundGeneric isObjC : Bool) (fnType : Option FnTypeM)
      (overriddenDecl : VarDeclEligM)
deriving DecidableEq

/-- Embedding of `requiresObjCPropertyDescriptor` (GenObjC.cpp:1221): generic
contexts are excluded, an overriding property defers to the overridden one,
otherwise its own `isObjC` must hold and a function-typed property must be a
block type. -/
def requiresObjCPropertyDescriptorM : VarDeclEligM → Bool
  | .root contextIsBoundGeneric isObjC fnType =>
      if contextIsBoundGeneric then false
      else if !isObjC then false
      else
        match fnType with
        | some ft => ft.isBlock
        | Option.none => true
  | .withOverride contextIsBoundGeneric _ _ ov =>
      if contextIsBoundGeneric then false
      else requiresObjCPropertyDescriptorM ov

/-- A `SubscriptDecl` as consumed by `requiresObjCSubscriptDescriptor`
(GenObjC.cpp:1241). `fnType` is `some` exactly when the element type is a
function type. -/
inductive SubscriptDeclEligM where
  | root (contextIsBoundGeneric isObjC : Bool) (fnType : Option FnTypeM)
  | withOverride (contextIsBoundGeneric isObjC : Bool) (fnType : Option FnTypeM)
      (overriddenDecl : SubscriptDeclEligM)
deriving DecidableEq

/-- Embedding of `requiresObjCSubscriptDescriptor` (GenObjC.cpp:1241),
structurally identical to the property predicate. -/
def requiresObjCSubscriptDescriptorM : SubscriptDeclEligM → Bool
  | .root contextIsBoundGeneric isObjC fnType =>
      if contextIsBoundGeneric then false
      else if !isObjC then false
      else
        match fnType with
        | some ft => ft.isBlock
        | Option.none => true
  | .withOverride contextIsBoundGeneric _ _ ov =>
      if contextIsBoundGeneric then false
      else requiresObjCSubscriptDescriptorM ov

/-- `SILDeclRef::Kind`. -/
inductive SILDeclRefKind where
  | Func
  | Allocator
  | Initializer
  | EnumElement
  | Destroyer
  | Deallocator
  | GlobalAccessor
  | DefaultArgGenerator
  | IVarInitializer
  | IVarDestroyer
deriving DecidableEq

/-- A `SILDeclRef` as consumed by `Selector::Selector(SILDeclRef)`:
`declObjCSelector` models what `getObjCSelector` on the referenced
func/constructor declaration would produce. -/
structure SILDeclRefM where
  kind : SILDeclRefKind
  declObjCSelector : String
deriving DecidableEq

/-- Outcome of constructing a selector: the fatal internal error
(`llvm_unreachable("Method does not have a selector")`) or selector text. -/
inductive SelectorOutcome where
  | fatalNoSelector
  | sel (text : String)
deriving DecidableEq

def deallocText : String := "dealloc"

def cxxConstructText : String := ".cxx_construct"

def cxxDestructText : String := ".cxx_destruct"

/-- Embedding of `Selector::Selector(SILDeclRef)` (GenObjC.cpp:335). -/
def selectorFromSILDeclRef (ref : SILDeclRefM) : SelectorOutcome :=
  match ref.kind with
  | .Allocator => .fatalNoSelector
  | .DefaultArgGenerator => .fatalNoSelector
  | .EnumElement => .fatalNoSelector
  | .GlobalAccessor => .fatalNoSelector
  | .Destroyer => .sel deallocText
  | .Deallocator => .sel deallocText
  | .Func => .sel ref.declObjCSelector
  | .Initializer => .sel ref.declObjCSelector
  | .IVarInitializer => .sel cxxConstructText
  | .IVarDestroyer => .sel cxxDestructText

/-
Theorems.
-/

theorem getD_eq_headD_drop : ∀ (n : Nat) (t : List Char) (d : Char),
    t.getD n d = (t.drop n).headD d := by
  intro n
  induction n with
  | zero => intro t d; cases t <;> rfl
  | succ k ih =>
      intro t d
      cases t with
      | nil => rfl
      | cons c ts => simp

theorem hasPrefixCh_eq_specPrefixRule (t p : List Char) :
    hasPrefixCh t p = specPrefixRule t p := by
  unfold hasPrefixCh specPrefixRule
  cases hp : p.isPrefixOf t with
  | false => simp [hp]
  | true =>
      have hle : p.length ≤ t.length := (List.isPrefixOf_iff_prefix.mp hp).length_le
      by_cases hlen : t.length = p.length
      · have hdrop : t.drop p.length = [] := by
          rw [List.drop_eq_nil_iff]
          omega
        rw [hdrop]
        simp [hlen]
      · have hne : t.drop p.length ≠ [] := by
          rw [Ne, List.drop_eq_nil_iff]
          omega
        match hd : t.drop p.length with
        | [] => exact absurd hd hne
        | c :: rest =>
            have hgetD : t.getD p.length ' ' = c := by
              rw [getD_eq_headD_drop, hd]
              rfl
            rw [hgetD]
            simp [hlen]

theorem strip_eq_dropWhile (t : List Char) :
    stripLeadingUnderscores t = t.dropWhile (fun c => c == '_') := by
  induction t with
  | nil => rfl
  | cons c ts ih =>
      by_cases hc : c = '_'
      · subst hc
        simp [stripLeadingUnderscores, List.dropWhile, ih]
      · have hb : (c == '_') = false := by simpa using hc
        simp [stripLeadingUnderscores, List.dropWhile, hc, hb]

theorem stripped_family_eq (t : List Char) :
    getFamilyStripped t = specFamilyOfStripped t := by
  unfold getFamilyStripped specFamilyOfStripped specFamilyTable
  simp only [List.find?, hasPrefixCh_eq_specPrefixRule]
  cases specPrefixRule t allocChars <;>
    cases specPrefixRule t copyChars <;>
    cases specPrefixRule t initChars <;>
    cases specPrefixRule t mutableCopyChars <;>
    cases specPrefixRule t newChars <;>
    simp

theorem strip_replicate (n : Nat) (t : List Char) :
    stripLeadingUnderscores (List.replicate n '_' ++ t)
      = stripLeadingUnderscores t := by
  induction n with
  | zero => rfl
  | succ k ih => simpa [List.replicate, stripLeadingUnderscores] using ih

def exAllocSelector : String := "allocX"

def exCopySelector : String := "copyThing"

def exNewSelector : String := "new"

def exInitSelector : String := "_initFoo"

/-- C2: family classification strips every leading underscore, then does a
case-sensitive match against the family name list where the character after
the matched name, when one exists, must not be lowercase; it agrees with the
spec-side classifier on all selector texts, is insensitive to any number of
leading underscores, and classifies "allocX", "copyThing", "new" and
"_initFoo" into Alloc, Copy, New and Init. -/
theorem selector_family_classification :
    (∀ s : String, getFamilyOfSelector s = specGetFamily s)
    ∧ (∀ t p : List Char, hasPrefixCh t p = specPrefixRule t p)
    ∧ (∀ (n : Nat) (t : List Char),
        getFamily (List.replicate n '_' ++ t) = getFamily t)
    ∧ getFamilyOfSelector exAllocSelector = SelectorFamily.Alloc
    ∧ getFamilyOfSelector exCopySelector = SelectorFamily.Copy
    ∧ getFamilyOfSelector exNewSelector = SelectorFamily.New
    ∧ getFamilyOfSelector exInitSelector = SelectorFamily.Init := by
  refine ⟨?_, hasPrefixCh_eq_specPrefixRule, ?_, by decide, by decide, by decide, by decide⟩
  · intro s
    unfold getFamilyOfSelector getFamily specGetFamily
    rw [strip_eq_dropWhile, stripped_family_eq]
  · intro n t
    unfold getFamily
    rw [strip_replicate]

def fooSelectorText : String := "foo:"

/-- C1: the symbol cache is idempotent per module: rerunning the method-name
getter, the selector-reference getter, or the protocol record/reference
getter on the state produced by a first call returns the identical symbol
(pair) and leaves the module state unchanged, so no duplicate globals are
ever allocated for the same key. -/
theorem objc_symbol_cache_idempotent
    (m : IRGenModuleState) (selText : String) (proto : Nat)
    (n1 : GlobalSym) (m1 : IRGenModuleState)
    (r1 : GlobalSym) (m2 : IRGenModuleState)
    (p1 : GlobalSym × GlobalSym) (m3 : IRGenModuleState)
    (hname : getAddrOfObjCMethodName m selText = (n1, m1))
    (href : getAddrOfObjCSelectorRef m selText = (r1, m2))
    (hproto : getObjCProtocolGlobalVars m proto = (p1, m3)) :
    getAddrOfObjCMethodName m1 selText = (n1, m1)
    ∧ getAddrOfObjCSelectorRef m2 selText = (r1, m2)
    ∧ getObjCProtocolGlobalVars m3 proto = (p1, m3) := by
  refine ⟨?_, ?_, ?_⟩
  · unfold getAddrOfObjCMethodName at hname ⊢
    cases h : m.ObjCMethodNames.lookup selText with
    | some entry =>
        rw [h] at hname
        simp only [Prod.mk.injEq] at hname
        obtain ⟨he, hm⟩ := hname
        subst he
        subst hm
        rw [h]
    | none =>
        rw [h] at hname
        simp only [Prod.mk.injEq] at hname
        obtain ⟨he, hm⟩ := hname
        subst he
        subst hm
        simp [List.lookup]
  · unfold getAddrOfObjCSelectorRef at href ⊢
    cases h : m.ObjCSelectorRefs.lookup selText with
    | some entry =>
        rw [h] at href
        simp only [Prod.mk.injEq] at href
        obtain ⟨he, hm⟩ := href
        subst he
        subst hm
        rw [h]
    | none =>
        rw [h] at href
        simp only [Prod.mk.injEq] at href
        obtain ⟨he, hm⟩ := href
        subst he
        subst hm
        simp [List.lookup]
  · unfold getObjCProtocolGlobalVars at hproto ⊢
    cases h : m.ObjCProtocols.lookup proto with
    | some pair =>
        rw [h] at hproto
        simp only [Prod.mk.injEq] at hproto
        obtain ⟨he, hm⟩ := hproto
        subst he
        subst hm
        rw [h]
    | none =>
        rw [h] at hproto
        simp only [Prod.mk.injEq] at hproto
        obtain ⟨he, hm⟩ := hproto
        subst he
        subst hm
        simp [List.lookup]

/-- Witness for C1 at a concrete module state: starting from an empty module,
the state after each first call satisfies the idempotence conclusion. -/
theorem objc_symbol_cache_idempotent_witness :
    getAddrOfObjCMethodName ⟨[(fooSelectorText, 0)], [], [], 1⟩ fooSelectorText
      = (0, ⟨[(fooSelectorText, 0)], [], [], 1⟩)
    ∧ getAddrOfObjCSelectorRef
        ⟨[(fooSelectorText, 0)], [(fooSelectorText, 1)], [], 2⟩ fooSelectorText
      = (1, ⟨[(fooSelectorText, 0)], [(fooSelectorText, 1)], [], 2⟩)
    ∧ getObjCProtocolGlobalVars ⟨[], [], [(7, (0, 2))], 3⟩ 7
      = ((0, 2), ⟨[], [], [(7, (0, 2))], 3⟩) :=
  objc_symbol_cache_idempotent ⟨[], [], [], 0⟩ fooSelectorText 7
    0 ⟨[(fooSelectorText, 0)], [], [], 1⟩
    1 ⟨[(fooSelectorText, 0)], [(fooSelectorText, 1)], [], 2⟩
    (0, 2) ⟨[], [], [(7, (0, 2))], 3⟩
    rfl rfl rfl

theorem sumArgSizes_map_some (args : List ForeignType) :
    ∀ acc : Nat, sumArgSizes (args.map some) acc = some (acc + sizeSum args) := by
  induction args with
  | nil => intro acc; simp [sumArgSizes, sizeSum]
  | cons a rest ih =>
      intro acc
      by_cases h : a.size = 0
      · simp [sumArgSizes, h, ih, sizeSum]
      · simp [sumArgSizes, h, ih, sizeSum, Nat.add_assoc]

theorem emitArgEncodings_map_some (args : List ForeignType) :
    ∀ (off : Nat) (acc : String),
      emitArgEncodings (args.map some) off acc
        = some (acc ++ specArgsEncoding args off) := by
  induction args with
  | nil => intro off acc; simp [emitArgEncodings, specArgsEncoding]
  | cons a rest ih =>
      intro off acc
      simp [emitArgEncodings, specArgsEncoding, ih, String.append_assoc]

/-- C3: for encodable return and argument types the synthesized encoding is
the return code, the frame size `2P` plus the sum of the argument sizes, the
fixed receiver/selector part `@0:<P>`, then each argument's code followed by
its cumulative offset starting at `2P`; in particular a nullary method gives
`<returnCode><2P>@0:<P>` and a two-argument method gives offsets `2P` and
`2P+s1` with frame size `2P+s1+s2`. -/
theorem method_type_encoding_layout :
    (∀ (P : Nat) (r : ForeignType) (args : List ForeignType),
       GetObjCEncodingForMethodType P (some r) (.tuple (args.map some))
         = some (r.code ++ toString (2 * P + sizeSum args) ++ atZeroColon
                 ++ toString P ++ specArgsEncoding args (2 * P)))
    ∧ (∀ (P : Nat) (r : ForeignType),
       GetObjCEncodingForMethodType P (some r) (.tuple [])
         = some (r.code ++ toString (2 * P) ++ atZeroColon ++ toString P))
    ∧ (∀ (P : Nat) (r a1 a2 : ForeignType),
       GetObjCEncodingForMethodType P (some r) (.tuple [some a1, some a2])
         = some (r.code ++ toString (2 * P + (a1.size + a2.size)) ++ atZeroColon
                 ++ toString P ++ a1.code ++ toString (2 * P)
                 ++ a2.code ++ toString (2 * P + a1.size)))
    ∧ (∀ (P : Nat) (r a : ForeignType),
       GetObjCEncodingForMethodType P (some r) (.single (some a))
         = some (r.code ++ toString (2 * P + a.size) ++ atZeroColon ++ toString P
                 ++ a.code ++ toString (2 * P))) := by
  have general : ∀ (P : Nat) (r : ForeignType) (args : List ForeignType),
      GetObjCEncodingForMethodType P (some r) (.tuple (args.map some))
        = some (r.code ++ toString (2 * P + sizeSum args) ++ atZeroColon
                ++ toString P ++ specArgsEncoding args (2 * P)) := by
    intro P r args
    simp only [GetObjCEncodingForMethodType, sumArgSizes_map_some,
               emitArgEncodings_map_some]
  refine ⟨general, ?_, ?_, ?_⟩
  · intro P r
    have h := general P r []
    simpa [sizeSum, specArgsEncoding] using h
  · intro P r a1 a2
    have h := general P r [a1, a2]
    simpa [sizeSum, specArgsEncoding, String.append_assoc, Nat.add_assoc] using h
  · intro P r a
    by_cases h : a.size = 0
    · simp [GetObjCEncodingForMethodType, h]
    · simp [GetObjCEncodingForMethodType, h]

theorem sumArgSizes_has_none (pre post : List (Option ForeignType)) :
    ∀ acc : Nat, sumArgSizes (pre ++ Option.none :: post) acc = Option.none := by
  induction pre with
  | nil => intro acc; rfl
  | cons o rest ih =>
      intro acc
      cases o with
      | none => rfl
      | some ft =>
          by_cases h : ft.size = 0 <;> simp [sumArgSizes, h, ih]

/-- C4: method type encoding is all-or-nothing: an unencodable return type
yields the null encoding, and any unencodable argument in either the tuple
path or the single-argument path aborts the whole encoding with null; no
partial encoding string is returned. -/
theorem method_type_encoding_all_or_nothing :
    (∀ (P : Nat) (inp : MethodInput),
       GetObjCEncodingForMethodType P Option.none inp = Option.none)
    ∧ (∀ (P : Nat) (r : ForeignType) (pre post : List (Option ForeignType)),
       GetObjCEncodingForMethodType P (some r) (.tuple (pre ++ Option.none :: post))
         = Option.none)
    ∧ (∀ (P : Nat) (r : ForeignType),
       GetObjCEncodingForMethodType P (some r) (.single Option.none)
         = Option.none) := by
  refine ⟨?_, ?_, ?_⟩
  · intro P inp; rfl
  · intro P r pre post
    simp [GetObjCEncodingForMethodType, sumArgSizes_has_none]
  · intro P r; rfl

/-- C5: the dispatch entry point chosen by `prepareObjCMethodRootCall` is
exactly the fixed six-way table over struct-return-in-effect (indirect result
together with the target's struct-return convention) and dispatch kind. -/
theorem dispatch_thunk_selection_table :
    ∀ (indirectResult objcUseStret : Bool) (kind : ObjCMessageKind),
      selectObjCMessenger indirectResult objcUseStret kind
        = specDispatchTable (indirectResult && objcUseStret) kind := by
  intro indirectResult objcUseStret kind
  cases indirectResult <;> cases objcUseStret <;> cases kind <;> rfl

def propGetterName : String := "value"

def propSetterName : String := "setValue:"

/-- A property whose type has no known foreign encoding
(`GenClangType::visit` returns a null clang type). -/
def unencodableProperty : VarPropertyM :=
  { getterSelector := propGetterName
    setterSelector := propSetterName
    inProtocolContext := false
    clangTy := Option.none }

/-- C6 evaluation at the failing input: for a property with no foreign
encoding, both descriptor-part emitters assign the selector and the null
encoding but return early without ever assigning the implementation
out-parameter, and the property descriptor is still built from the
never-assigned field — contradicting the claim that a valid implementation
pointer is produced. -/
theorem property_descriptor_unencodable_impl_unassigned :
    (emitObjCGetterDescriptorPartsVar 8 unencodableProperty).selectorRef = propGetterName
    ∧ (emitObjCGetterDescriptorPartsVar 8 unencodableProperty).atEncoding = Option.none
    ∧ (emitObjCGetterDescriptorPartsVar 8 unencodableProperty).impl = Option.none
    ∧ (emitObjCSetterDescriptorPartsVar 8 unencodableProperty).selectorRef = propSetterName
    ∧ (emitObjCSetterDescriptorPartsVar 8 unencodableProperty).atEncoding = Option.none
    ∧ (emitObjCSetterDescriptorPartsVar 8 unencodableProperty).impl = Option.none
    ∧ ((emitObjCPropertyMethodDescriptors 8 unencodableProperty true).1).imp
        = Option.none := by
  decide

/-- C7: the partial-application forwarder loads the receiver from the closure
as a copy (one retain) exactly once for the owned and guaranteed conventions
and as a take for the unowned convention, and every exit path — the
indirect-result path and the normal-return path — releases the closure's
reference exactly once, immediately before returning, so the retain emitted
for the receiver is balanced by the single release of the closure's
reference. -/
theorem partial_application_retain_release :
    ∀ (conv : ParameterConvention) (hasIndirectReturn : Bool) (trace : List FwdStep),
      emitObjCPartialApplicationForwarder conv hasIndirectReturn = some trace →
      trace.count FwdStep.releaseContext = 1
      ∧ [FwdStep.releaseContext,
         if hasIndirectReturn then FwdStep.retVoid else FwdStep.retScalar] <:+ trace
      ∧ ((conv = ParameterConvention.Direct_Owned
          ∨ conv = ParameterConvention.Direct_Guaranteed) →
           trace.count FwdStep.loadSelfAsCopy = 1
           ∧ trace.count FwdStep.loadSelfAsTake = 0)
      ∧ (conv = ParameterConvention.Direct_Unowned →
           trace.count FwdStep.loadSelfAsTake = 1
           ∧ trace.count FwdStep.loadSelfAsCopy = 0) := by
  intro conv hasIndirectReturn trace h
  cases conv <;> cases hasIndirectReturn <;>
    simp only [emitObjCPartialApplicationForwarder, retainsSelf, if_true, if_false,
               Bool.false_eq_true, reduceCtorEq, Option.some.injEq] at h <;>
    first
      | exact absurd h (by simp)
      | (subst h; decide)

/-- Witness for C7 at the owned convention on the normal-return path. -/
theorem partial_application_retain_release_witness :
    ([FwdStep.loadSelfAsCopy, FwdStep.objcMsgSendCall, FwdStep.releaseContext,
      FwdStep.retScalar].count FwdStep.releaseContext = 1)
    ∧ [FwdStep.releaseContext, FwdStep.retScalar]
        <:+ [FwdStep.loadSelfAsCopy, FwdStep.objcMsgSendCall,
             FwdStep.releaseContext, FwdStep.retScalar]
    ∧ ((ParameterConvention.Direct_Owned = ParameterConvention.Direct_Owned
        ∨ ParameterConvention.Direct_Owned = ParameterConvention.Direct_Guaranteed) →
         [FwdStep.loadSelfAsCopy, FwdStep.objcMsgSendCall, FwdStep.releaseContext,
          FwdStep.retScalar].count FwdStep.loadSelfAsCopy = 1
         ∧ [FwdStep.loadSelfAsCopy, FwdStep.objcMsgSendCall, FwdStep.releaseContext,
            FwdStep.retScalar].count FwdStep.loadSelfAsTake = 0)
    ∧ (ParameterConvention.Direct_Owned = ParameterConvention.Direct_Unowned →
         [FwdStep.loadSelfAsCopy, FwdStep.objcMsgSendCall, FwdStep.releaseContext,
          FwdStep.retScalar].count FwdStep.loadSelfAsTake = 1
         ∧ [FwdStep.loadSelfAsCopy, FwdStep.objcMsgSendCall, FwdStep.releaseContext,
            FwdStep.retScalar].count FwdStep.loadSelfAsCopy = 0) :=
  partial_application_retain_release ParameterConvention.Direct_Owned false
    [FwdStep.loadSelfAsCopy, FwdStep.objcMsgSendCall, FwdStep.releaseContext,
     FwdStep.retScalar] rfl

/-- A non-generic constructor marked for ObjC: it is eligible. -/
def eligibleBaseCtor : ConstructorDeclM :=
  .root false false false true

/-- A non-generic constructor that overrides `eligibleBaseCtor` but is not
itself marked for ObjC. -/
def overridingCtor : ConstructorDeclM :=
  .withOverride false false false false eligibleBaseCtor

/-- C8 counterexample: the constructor eligibility predicate is not
override-propagating — a constructor overriding an eligible constructor,
itself unmarked, is not eligible, because
`requiresObjCMethodDescriptor(ConstructorDecl*)` never consults the
overridden declaration. -/
theorem ctor_eligibility_not_override_propagating :
    requiresObjCMethodDescriptorCtor eligibleBaseCtor = true
    ∧ requiresObjCMethodDescriptorCtor overridingCtor = false := by
  decide

/-- C8 amended: the method, property and subscript eligibility predicates are
override-propagating — a declaration that passes its own kind-local screens
(non-accessor, non-generic context) and overrides an eligible declaration is
itself eligible even if not independently marked, recursively through the
override chain; the constructor predicate is excluded from this property. -/
theorem eligibility_override_propagation_amended :
    (∀ (isObjC isIBAction : Bool) (ov : FuncDeclM),
       requiresObjCMethodDescriptorFn ov = true →
       requiresObjCMethodDescriptorFn
         (.withOverride false false false false isObjC isIBAction ov) = true)
    ∧ (∀ (isObjC : Bool) (fnType : Option FnTypeM) (ov : VarDeclEligM),
       requiresObjCPropertyDescriptorM ov = true →
       requiresObjCPropertyDescriptorM (.withOverride false isObjC fnType ov) = true)
    ∧ (∀ (isObjC : Bool) (fnType : Option FnTypeM) (ov : SubscriptDeclEligM),
       requiresObjCSubscriptDescriptorM ov = true →
       requiresObjCSubscriptDescriptorM (.withOverride false isObjC fnType ov) = true) := by
  refine ⟨?_, ?_, ?_⟩
  · intro isObjC isIBAction ov h
    cases isObjC <;> cases isIBAction <;>
      simp [requiresObjCMethodDescriptorFn, h]
  · intro isObjC fnType ov h
    simp [requiresObjCPropertyDescriptorM, h]
  · intro isObjC fnType ov h
    simp [requiresObjCSubscriptDescriptorM, h]

/-- Witness for the amended C8 at concrete one-step override chains. -/
theorem eligibility_override_propagation_amended_witness :
    requiresObjCMethodDescriptorFn
      (.withOverride false false false false false false
        (.root false false false false true false)) = true
    ∧ requiresObjCPropertyDescriptorM
        (.withOverride false false Option.none (.root false true Option.none)) = true
    ∧ requiresObjCSubscriptDescriptorM
        (.withOverride false false Option.none (.root false true Option.none)) = true :=
  ⟨eligibility_override_propagation_amended.1 false false
      (.root false false false false true false) (by decide),
   eligibility_override_propagation_amended.2.1 false Option.none
      (.root false true Option.none) (by decide),
   eligibility_override_propagation_amended.2.2 false Option.none
      (.root false true Option.none) (by decide)⟩

/-- C9: constructing a selector from a `SILDeclRef` whose kind has no defined
selector — allocator entry point, default-argument generator, enum-element
constructor, or global accessor — hits the fatal internal error
(`llvm_unreachable`) and never returns selector text. -/
theorem no_selector_kind_fatal :
    ∀ (ref : SILDeclRefM),
      (ref.kind = SILDeclRefKind.Allocator
       ∨ ref.kind = SILDeclRefKind.DefaultArgGenerator
       ∨ ref.kind = SILDeclRefKind.EnumElement
       ∨ ref.kind = SILDeclRefKind.GlobalAccessor) →
      selectorFromSILDeclRef ref = SelectorOutcome.fatalNoSelector
      ∧ ∀ s : String, selectorFromSILDeclRef ref ≠ SelectorOutcome.sel s := by
  intro ref h
  obtain ⟨k, t⟩ := ref
  rcases h with h | h | h | h <;> subst h <;>
    exact ⟨rfl, fun s hs => nomatch hs⟩

/-- Witness for C9 at the allocator kind. -/
theorem no_selector_kind_fatal_witness :
    selectorFromSILDeclRef ⟨SILDeclRefKind.Allocator, deallocText⟩
      = SelectorOutcome.fatalNoSelector
    ∧ ∀ s : String,
        selectorFromSILDeclRef ⟨SILDeclRefKind.Allocator, deallocText⟩
          ≠ SelectorOutcome.sel s :=
  no_selector_kind_fatal ⟨SILDeclRefKind.Allocator, deallocText⟩ (Or.inl rfl)

/-- C10: for every subscript declaration, the getter and setter descriptor
parts always carry the null type-encoding component, regardless of the
element type's encodability, while the selector and the implementation
pointer are populated. -/
theorem subscript_descriptor_null_encoding :
    ∀ (subscript : SubscriptM),
      (emitObjCGetterDescriptorPartsSubscript subscript).atEncoding = Option.none
      ∧ (emitObjCGetterDescriptorPartsSubscript subscript).selectorRef
          = subscript.getterSelector
      ∧ (emitObjCGetterDescriptorPartsSubscript subscript).impl
          = some (getObjCGetterPointer subscript.inProtocolContext)
      ∧ (emitObjCSetterDescriptorPartsSubscript subscript).atEncoding = Option.none
      ∧ (emitObjCSetterDescriptorPartsSubscript subscript).selectorRef
          = subscript.setterSelector
      ∧ (emitObjCSetterDescriptorPartsSubscript subscript).impl
          = some (getObjCSetterPointer subscript.inProtocolContext) := by
  intro subscript
  exact ⟨rfl, rfl, rfl, rfl, rfl, rfl⟩
